import Mathlib

/-!
# Codex Account Manager — verification of the spec against the code

Shallow embedding of the codex-account-switch-backups repository.

The repository ships the web/tray frontend in TypeScript
(`apps/web/app/api/cli/route.ts`, `apps/web/app/page.tsx`); those are
embedded directly from the source.  The core engine (crypto, vault store,
identity context, injection proxy, audit log, sync engine) is a Python CLI
whose sources are not in the tree; the definitions for it are modelled from
the specification, as marked in each doc comment.
-/

namespace Codex

/-! ## Crypto Engine (modelled from the spec, §4.1) -/

/-- Modelled from the spec: the source `crypto` module is not in the tree.
Error raised when authenticated decryption fails: "`decrypt` fails with
`AuthenticationError` when the ciphertext was tampered with or the key is
wrong". -/
inductive CryptoError where
  | authenticationError
deriving Repr, DecidableEq

/-- Modelled from the spec: ciphertext of the authenticated symmetric cipher,
generic in the plaintext type (profile payloads are strings, the wrapped team
content key is a key).  The symbolic (ideal-cipher) model keeps the nonce, a
body standing for the encrypted payload, and an authentication tag binding
the key and the body.  Tampering with the body, or decrypting under a
different key, breaks the tag check. -/
structure Ciphertext (α : Type) where
  nonce : Nat
  body : α
  tag : Nat × α
deriving Repr, DecidableEq

/-- Modelled from the spec: "`encrypt(key, plaintext) -> ciphertext` ...
with a fresh random nonce per call, nonce stored alongside ciphertext".
The nonce is passed explicitly to keep the function deterministic. -/
def encrypt {α : Type} (key : Nat) (nonce : Nat) (plaintext : α) :
    Ciphertext α :=
  { nonce := nonce, body := plaintext, tag := (key, plaintext) }

/-- Modelled from the spec: "`decrypt(key, ciphertext) -> plaintext` using an
authenticated symmetric cipher (confidentiality + integrity)"; the tag check
fails with `AuthenticationError` on a wrong key or a tampered body. -/
def decrypt {α : Type} [DecidableEq α] (key : Nat) (c : Ciphertext α) :
    Except CryptoError α :=
  if c.tag = (key, c.body) then .ok c.body else .error .authenticationError

/-- Modelled from the spec: tampering replaces the stored body of a
ciphertext without being able to recompute an authentic tag. -/
def tamper {α : Type} (c : Ciphertext α) (newBody : α) : Ciphertext α :=
  { c with body := newBody }

end Codex

namespace CliBridge

/-! ## Web API bridge (`apps/web/app/api/cli/route.ts`) -/

/-- JSON body shape returned by the `/api/cli` route and by
`Command.sidecar(...).execute()`: `{ code, stdout, stderr }`. -/
structure CliResult where
  code : Int
  stdout : String
  stderr : String
deriving Repr, DecidableEq

/-- Outcome of `execFileAsync(binaryPath, args)` in `route.ts`: resolves with
captured stdout/stderr, or rejects with an error object carrying `code`,
`stdout`, `stderr` and `message`. -/
inductive ExecOutcome where
  | ok (stdout stderr : String)
  | err (code : Option Int) (stdout : Option String) (stderr : Option String)
      (message : String)
deriving Repr, DecidableEq

/-- HTTP response produced by the `POST` handler in `route.ts`: a JSON
`CliResult` plus the HTTP status. -/
structure PostResponse where
  status : Nat
  json : CliResult
deriving Repr, DecidableEq

/-- From `route.ts` line 17: the `allowedCommands` whitelist declared in the
`POST` handler. -/
def allowedCommands : List String :=
  ["status", "list", "switch", "login", "save", "device-login-init",
   "device-login-poll", "add"]

/-- Whether the first element of `args` is in `allowedCommands`
(the check `route.ts` declares the data for but never performs). -/
def firstArgAllowed (args : List String) : Bool :=
  match args.head? with
  | some a => allowedCommands.contains a
  | none => false

/-- From `route.ts` lines 9-49: the `POST` handler body after the request
JSON has been read.  `exec` abstracts `execFileAsync` applied to the fixed
binary path.  On success it returns status 200 with `code := 0`; on rejection
it returns status 500 with `code := error.code || 1`,
`stdout := error.stdout || ""`, `stderr := error.stderr || error.message`.
The `allowedCommands` list is declared but `args` is passed to `exec`
unchecked. -/
def POST (exec : List String → ExecOutcome) (args : List String) : PostResponse :=
  match exec args with
  | .ok out err => { status := 200, json := { code := 0, stdout := out, stderr := err } }
  | .err c out err msg =>
      { status := 500,
        json := { code := c.getD 1,
                  stdout := out.getD "",
                  stderr := err.getD msg } }

end CliBridge

namespace TrayApp

/-! ## Tray frontend (`apps/web/app/page.tsx`) -/

open CliBridge

/-- Outcome of `fetch('/api/cli', …)` followed by `res.json()` in
`invokeCLI`: either the parsed JSON object, or a thrown exception rendered by
`String(e)`. -/
inductive FetchOutcome where
  | ok (result : CliResult)
  | thrown (e : String)
deriving Repr, DecidableEq

/-- From `page.tsx` lines 42-61: `invokeCLI`.  In a Tauri window it defers to
the sidecar command; otherwise it posts the args to `/api/cli` and, if the
fetch or JSON parse throws, returns `{ code: 1, stdout: "", stderr: String(e) }`
instead of propagating.  A thrown exception is modelled as `Except.error`. -/
def invokeCLI (isTauri : Bool) (sidecar : Except String CliResult)
    (fetchCli : FetchOutcome) : Except String CliResult :=
  if isTauri then
    sidecar
  else
    match fetchCli with
    | .ok r => .ok r
    | .thrown e => .ok { code := 1, stdout := "", stderr := e }

end TrayApp

namespace Codex

/-! ## Identity Context (modelled from the spec, §3 and §4.3) -/

/-- Modelled from the spec: the source `context` module is not in the tree.
The three layers of identity state: "(1) an explicit session override (an
environment variable naming a slug ...), (2) a directory-to-slug link table
(keyed by absolute working-directory path ...), (3) a single persisted
'globally active' slug."  A directory path is a list of components from the
filesystem root. -/
structure IdentityCtx where
  sessionOverride : Option String
  dirLinks : List (List String × String)
  globalActive : Option String
deriving Repr, DecidableEq

/-- Modelled from the spec: exact-path lookup in the directory link table
("links are keyed by canonicalized absolute path so subdirectories do not
inherit a parent's link implicitly"). -/
def lookupDir (links : List (List String × String)) (p : List String) :
    Option String :=
  match links with
  | [] => none
  | (q, s) :: rest => if q = p then some s else lookupDir rest p

/-- Modelled from the spec: helper for the upward walk, structurally
recursive on the reversed path (dropping the head of the reversed path is
dropping the last component of the path). -/
def walkUpFrom (links : List (List String × String)) :
    List String → Option String
  | [] => lookupDir links []
  | c :: rest =>
    match lookupDir links (c :: rest).reverse with
    | some s => some s
    | none => walkUpFrom links rest

/-- Modelled from the spec: "resolution only matches exact recorded paths,
walking up parent directories until a match or filesystem root is reached
(first match wins, closest directory takes precedence over an ancestor's
link)". -/
def walkUp (links : List (List String × String)) (p : List String) :
    Option String :=
  walkUpFrom links p.reverse

/-- Modelled from the spec: "`resolve(cwd) -> slug | none` applies the
three-layer precedence": session override first, else the closest directory
link found walking up from `cwd`, else the globally active slug, else none. -/
def resolve (ctx : IdentityCtx) (cwd : List String) : Option String :=
  match ctx.sessionOverride with
  | some s => some s
  | none =>
    match walkUp ctx.dirLinks cwd with
    | some d => some d
    | none => ctx.globalActive

/-! ## Profiles and vault data (modelled from the spec, §3) -/

/-- Modelled from the spec: the credential payload is "a tagged variant with
exactly one active case" — an API key, or OAuth-style access/refresh
tokens. -/
inductive Payload where
  | apiKey (key : String)
  | oauth (access refresh : String)
deriving Repr, DecidableEq

/-- Modelled from the spec: a named credential identity — optional email,
payload, extra environment variables, tags, and a modification timestamp
(the creation timestamp plays no role in the claims and is omitted). -/
structure Profile where
  email : Option String
  payload : Payload
  extraEnv : List (String × String)
  tags : List String
  mtime : Nat
deriving Repr, DecidableEq

/-- Generic string-keyed association lookup, used for vault data and
environment maps. -/
def lookupKV {α : Type} : List (String × α) → String → Option α
  | [], _ => none
  | (s', a) :: rest, s => if s' = s then some a else lookupKV rest s

/-- Generic insert-or-replace for a string-keyed association list. -/
def putKV {α : Type} : List (String × α) → String → α → List (String × α)
  | [], s, a => [(s, a)]
  | (s', a') :: rest, s, a =>
    if s' = s then (s, a) :: rest else (s', a') :: putKV rest s a

/-- Generic key removal from a string-keyed association list. -/
def delKV {α : Type} : List (String × α) → String → List (String × α)
  | [], _ => []
  | (s', a') :: rest, s =>
    if s' = s then delKV rest s else (s', a') :: delKV rest s

/-- Modelled from the spec: decrypted vault contents, "a mapping from slug to
encrypted Profile blob", as an association list from slug to profile. -/
abbrev VaultData := List (String × Profile)

/-! ## Vault Store atomic mutation (modelled from the spec, §4.2) -/

/-- Modelled from the spec: the source vault-store module is not in the tree.
The content of one on-disk file: either a whole serialized vault state, or a
torn (incompletely written) file of some byte count. -/
inductive FileContent where
  | whole (v : VaultData)
  | torn (bytes : Nat)
deriving Repr, DecidableEq

/-- Modelled from the spec: vault-store error surfaced when a read fails. -/
inductive VaultError where
  | corrupted
deriving Repr, DecidableEq

/-- Modelled from the spec: reading a vault file fails on a torn file. -/
def readFile : FileContent → Except VaultError VaultData
  | .whole v => .ok v
  | .torn _ => .error .corrupted

/-- Modelled from the spec: the on-disk state relevant to one mutation — the
vault file and the optional temp file in the same directory. -/
structure Disk where
  main : FileContent
  temp : Option FileContent
deriving Repr, DecidableEq

/-- Modelled from the spec: a vault mutation — `put(slug, Profile)` or
`delete(slug)`. -/
inductive Mutation where
  | put (slug : String) (p : Profile)
  | delete (slug : String)
deriving Repr, DecidableEq

/-- Modelled from the spec: the new vault state a mutation serializes. -/
def applyMutation (m : Mutation) (v : VaultData) : VaultData :=
  match m with
  | .put s p => putKV v s p
  | .delete s => delKV v s

/-- Modelled from the spec: "`list()` -> sequence of Profile metadata" reads
the vault file itself, never the temp path. -/
def listDisk (d : Disk) : Except VaultError VaultData :=
  readFile d.main

/-- Modelled from the spec: "serialize new state to a temp path in the same
directory, fsync, rename over the original".  Every disk state reachable when
a crash interrupts the mutation, starting from a well-formed vault `v`:
before the temp write, mid temp write (a torn temp file of `k` bytes), after
the temp write but before the rename, and after the rename. -/
def crashStates (v : VaultData) (m : Mutation) (k : Nat) : List Disk :=
  [ { main := .whole v, temp := none },
    { main := .whole v, temp := some (.torn k) },
    { main := .whole v, temp := some (.whole (applyMutation m v)) },
    { main := .whole (applyMutation m v), temp := none } ]

/-! ## Sync Engine merge (modelled from the spec, §4.6) -/

/-- Modelled from the spec: "last-write-wins by modification timestamp per
slug". -/
def lww (localP remoteP : Profile) : Profile :=
  if remoteP.mtime > localP.mtime then remoteP else localP

/-- Modelled from the spec: the merged value of one slug present locally,
given the remote vault. -/
def mergeEntry (remoteV : VaultData) (s : String) (p : Profile) : Profile :=
  match lookupKV remoteV s with
  | some q => lww p q
  | none => p

/-- Modelled from the spec: the sync-engine source is not in the tree.
"merge at the profile-slug granularity using last-write-wins by modification
timestamp per slug (not whole-vault last-write-wins)": every local slug is
merged against the remote value, and remote-only slugs are appended. -/
def mergeVaults (localV remoteV : VaultData) : VaultData :=
  localV.map (fun e => (e.1, mergeEntry remoteV e.1 e.2)) ++
    remoteV.filter (fun e => (lookupKV localV e.1).isNone)

/-- Modelled from the spec: a replica applies a batch of profile
modifications (puts) on top of its current state. -/
def applyPuts (v : VaultData) (mods : List (String × Profile)) : VaultData :=
  mods.foldl (fun acc e => putKV acc e.1 e.2) v

/-! ## Audit Log, core operations, teams (modelled from the spec, §3-§4.6) -/

/-- Modelled from the spec: audit "action kind (read/switch/inject/sync)". -/
inductive ActionKind where
  | read | switch | inject | sync
deriving Repr, DecidableEq

/-- Modelled from the spec: an "immutable record: timestamp, accessed slug,
action kind ..., and a boolean 'secret value exposed' flag — never the secret
value itself". -/
structure AuditEntry where
  timestamp : Nat
  slug : String
  action : ActionKind
  exposed : Bool
deriving Repr, DecidableEq

/-- Modelled from the spec: error taxonomy of the core operations (§7). -/
inductive CoreError where
  | profileNotFound
  | noActiveIdentity
  | invalidMasterKey
  | cryptoFailure
deriving Repr, DecidableEq

/-- Modelled from the spec: the core's persisted and in-memory state — the
personal vault, the joined team vaults by name, the identity context, the
append-only audit log (newest first) and a timestamp counter. -/
structure CoreState where
  personal : VaultData
  teams : List (String × VaultData)
  ctx : IdentityCtx
  audit : List AuditEntry
  clock : Nat
deriving Repr, DecidableEq

/-- Modelled from the spec: team profiles live "under the `team_name/slug`
prefix". -/
def addNamespace (ns slug : String) : String :=
  ns ++ "/" ++ slug

/-- Whether `slug` lies under the `ns/` namespace prefix (computed on the
underlying character list). -/
def underNamespace (ns slug : String) : Bool :=
  List.isPrefixOf (ns ++ "/").data slug.data

/-- Modelled from the spec: all accessible profiles — the personal vault plus
every joined team vault "queried ... under the `team_name/slug` prefix". -/
def listAll (st : CoreState) : VaultData :=
  st.personal ++
    (st.teams.map (fun t => t.2.map (fun e => (addNamespace t.1 e.1, e.2)))).flatten

/-- Modelled from the spec: `record(entry)` appends one entry to the
append-only log (kept newest first) and advances the clock. -/
def recordAudit (st : CoreState) (slug : String) (a : ActionKind)
    (exposed : Bool) : CoreState :=
  { st with
    audit := { timestamp := st.clock, slug := slug, action := a,
               exposed := exposed } :: st.audit,
    clock := st.clock + 1 }

/-- Modelled from the spec: `get(slug) -> Profile` decrypts on demand and
records one audit entry (read, secrets masked by default). -/
def get (st : CoreState) (slug : String) : Except CoreError Profile × CoreState :=
  let st' := recordAudit st slug .read false
  match lookupKV (listAll st) slug with
  | some p => (.ok p, st')
  | none => (.error .profileNotFound, st')

/-- Modelled from the spec: "`switch(slug)` validates the slug exists in some
accessible vault, then persists it as the globally active slug; this is the
only mutation path for the global layer.  Switching to a nonexistent slug
fails with `ProfileNotFound` and leaves the prior active identity
unchanged."  One audit entry is recorded per call. -/
def switch (st : CoreState) (slug : String) : Except CoreError Unit × CoreState :=
  let st' := recordAudit st slug .switch false
  if (lookupKV (listAll st) slug).isSome then
    (.ok (), { st' with ctx := { st'.ctx with globalActive := some slug } })
  else
    (.error .profileNotFound, st')

/-- Modelled from the spec: primary credential environment variables of a
payload. -/
def primaryVars : Payload → List (String × String)
  | .apiKey k => [("CODEX_API_KEY", k)]
  | .oauth a r => [("CODEX_ACCESS_TOKEN", a), ("CODEX_REFRESH_TOKEN", r)]

/-- Modelled from the spec: apply a list of variable bindings over a base
environment, later bindings overriding earlier ones on name collision. -/
def overrideWith (base upd : List (String × String)) :
    List (String × String) :=
  upd.foldl (fun acc e => putKV acc e.1 e.2) base

/-- Modelled from the spec: "a child-process environment equal to the current
process environment plus the profile's primary credential variables and its
extra key/value pairs (extra pairs override primary ones on name
collision)". -/
def injectEnv (ambient : List (String × String)) (p : Profile) :
    List (String × String) :=
  overrideWith (overrideWith ambient (primaryVars p.payload)) p.extraEnv

/-- Modelled from the spec: the child process the Injection Proxy spawns —
its argv and its environment. -/
structure SpawnRequest where
  argv : List String
  env : List (String × String)
deriving Repr, DecidableEq

/-- Modelled from the spec: `run(argv, resolved_slug)` of the Injection
Proxy.  "An Audit Entry is recorded for the injection itself (slug +
'inject', not the values) before spawning"; the returned `SpawnRequest` is
the spawn, so a failing call spawns nothing. -/
def runInject (st : CoreState) (slug : String) (argv : List String)
    (ambient : List (String × String)) :
    Except CoreError SpawnRequest × CoreState :=
  let st' := recordAudit st slug .inject true
  match lookupKV (listAll st) slug with
  | some p => (.ok { argv := argv, env := injectEnv ambient p }, st')
  | none => (.error .profileNotFound, st')

/-- Modelled from the spec: "`run(argv)` — resolves active identity then
delegates to Injection Proxy"; "Failure to resolve any identity produces
`NoActiveIdentity` and the command is not run at all". -/
def run (st : CoreState) (cwd : List String) (argv : List String)
    (ambient : List (String × String)) :
    Except CoreError SpawnRequest × CoreState :=
  match resolve st.ctx cwd with
  | some slug => runInject st slug argv ambient
  | none => (.error .noActiveIdentity, st)

/-- Modelled from the spec: a team remote — the "Team Key Wrapper" (the
team's content key encrypted under the team master key) and the team vault
encrypted under the content key. -/
structure TeamRemote where
  wrapper : Ciphertext Nat
  vaultBlob : Ciphertext VaultData
deriving Repr, DecidableEq

/-- Modelled from the spec: "`team_join(team_name, remote_url, master_key)`
... unwraps the team's content key using the supplied master key (failing
with `InvalidMasterKey` on authentication failure), and registers the team
vault as an additional namespace". -/
def team_join (st : CoreState) (name : String) (remote : TeamRemote)
    (masterKey : Nat) : Except CoreError Unit × CoreState :=
  match decrypt masterKey remote.wrapper with
  | .error _ => (.error .invalidMasterKey, st)
  | .ok contentKey =>
    match decrypt contentKey remote.vaultBlob with
    | .error _ => (.error .cryptoFailure, st)
    | .ok tv => (.ok (), { st with teams := st.teams ++ [(name, tv)] })

/-- Modelled from the spec: a batch modification is "newer than" the base
state when its timestamp beats the base's stored timestamp for that slug. -/
def isNewerThan (base : VaultData) (e : String × Profile) : Bool :=
  match lookupKV base e.1 with
  | some q => decide (q.mtime < e.2.mtime)
  | none => true

/-- Concrete API-key profile used by the witness theorems. -/
def sampleProfile (k : String) (t : Nat) : Profile :=
  { email := none, payload := .apiKey k, extraEnv := [], tags := [],
    mtime := t }

/-- Concrete crash state used by the atomicity witness: vault file whole, a
torn temp file from an interrupted mutation. -/
def crashDisk : Disk :=
  { main := .whole [("work", sampleProfile "sk-1" 1)],
    temp := some (.torn 5) }

/-- Concrete core state with an empty vault and a persisted active slug. -/
def bareState : CoreState :=
  { personal := [], teams := [],
    ctx := { sessionOverride := none, dirLinks := [],
             globalActive := some "old" },
    audit := [], clock := 0 }

/-- Concrete core state with one profile, globally active. -/
def activeState : CoreState :=
  { personal := [("work", sampleProfile "sk-w" 3)], teams := [],
    ctx := { sessionOverride := none, dirLinks := [],
             globalActive := some "work" },
    audit := [], clock := 0 }

/-- Concrete core state in which no identity layer is set. -/
def noIdState : CoreState :=
  { personal := [], teams := [],
    ctx := { sessionOverride := none, dirLinks := [], globalActive := none },
    audit := [], clock := 0 }

/-- Concrete team remote: content key 99 wrapped under master key 5, vault
with one profile encrypted under the content key. -/
def teamRemoteW : TeamRemote :=
  { wrapper := encrypt 5 1 99,
    vaultBlob := encrypt 99 2 [("aws", sampleProfile "sk-t" 1)] }

/-! ## Association-list lemmas -/

theorem lookupKV_putKV_self {α : Type} (v : List (String × α)) (s : String)
    (a : α) : lookupKV (putKV v s a) s = some a := by
  induction v with
  | nil => simp [putKV, lookupKV]
  | cons e rest ih =>
    by_cases h : e.1 = s
    · simp [putKV, h, lookupKV]
    · simp [putKV, h, lookupKV, ih]

theorem lookupKV_putKV_ne {α : Type} (v : List (String × α)) (s s' : String)
    (a : α) (h : s' ≠ s) :
    lookupKV (putKV v s a) s' = lookupKV v s' := by
  have h' : s ≠ s' := Ne.symm h
  induction v with
  | nil => simp [putKV, lookupKV, h']
  | cons e rest ih =>
    by_cases he : e.1 = s
    · simp [putKV, he, lookupKV, h']
    · simp [putKV, he, lookupKV, ih]

theorem applyPuts_cons (v : VaultData) (e : String × Profile)
    (rest : List (String × Profile)) :
    applyPuts v (e :: rest) = applyPuts (putKV v e.1 e.2) rest := rfl

theorem lookupKV_applyPuts_not_mem (v : VaultData)
    (mods : List (String × Profile)) (s : String)
    (h : s ∉ mods.map Prod.fst) :
    lookupKV (applyPuts v mods) s = lookupKV v s := by
  induction mods generalizing v with
  | nil => rfl
  | cons e rest ih =>
    simp only [List.map_cons, List.mem_cons, not_or] at h
    rw [applyPuts_cons, ih _ h.2, lookupKV_putKV_ne _ _ _ _ h.1]

theorem lookupKV_of_mem_nodup (v : VaultData) (s : String) (p : Profile)
    (hnd : (v.map Prod.fst).Nodup) (hm : (s, p) ∈ v) :
    lookupKV v s = some p := by
  induction v with
  | nil => cases hm
  | cons e rest ih =>
    simp only [List.map_cons, List.nodup_cons] at hnd
    rcases List.mem_cons.mp hm with he | hrest
    · rw [← he]
      simp [lookupKV]
    · have hne : e.1 ≠ s := by
        intro hcontra
        exact hnd.1 (hcontra ▸ List.mem_map_of_mem Prod.fst hrest)
      simp [lookupKV, hne, ih hnd.2 hrest]

theorem lookupKV_applyPuts_mem (v : VaultData)
    (mods : List (String × Profile)) (s : String) (p : Profile)
    (hnd : (mods.map Prod.fst).Nodup) (hm : (s, p) ∈ mods) :
    lookupKV (applyPuts v mods) s = some p := by
  induction mods generalizing v with
  | nil => cases hm
  | cons e rest ih =>
    simp only [List.map_cons, List.nodup_cons] at hnd
    rcases List.mem_cons.mp hm with he | hrest
    · have hkey : s = e.1 := congrArg Prod.fst he
      have hnot : s ∉ rest.map Prod.fst := hkey ▸ hnd.1
      rw [applyPuts_cons, lookupKV_applyPuts_not_mem _ _ _ hnot, hkey]
      have hval : p = e.2 := congrArg Prod.snd he
      rw [hval]
      exact lookupKV_putKV_self v e.1 e.2
    · rw [applyPuts_cons]
      exact ih _ hnd.2 hrest

theorem lookupKV_append_some {α : Type} (xs ys : List (String × α))
    (s : String) (a : α) (h : lookupKV xs s = some a) :
    lookupKV (xs ++ ys) s = some a := by
  induction xs with
  | nil => exact nomatch h
  | cons e rest ih =>
    obtain ⟨s', a'⟩ := e
    by_cases he : s' = s
    · simpa [lookupKV, he] using h
    · simp only [lookupKV, he, if_false] at h
      simp only [List.cons_append, lookupKV, he, if_false]
      exact ih h

theorem lookupKV_append_none {α : Type} (xs ys : List (String × α))
    (s : String) (h : lookupKV xs s = none) :
    lookupKV (xs ++ ys) s = lookupKV ys s := by
  induction xs with
  | nil => rfl
  | cons e rest ih =>
    obtain ⟨s', a'⟩ := e
    by_cases he : s' = s
    · simp [lookupKV, he] at h
    · simp only [lookupKV, he, if_false] at h
      simp only [List.cons_append, lookupKV, he, if_false]
      exact ih h

theorem lookupKV_map_value {α β : Type} (f : String → α → β)
    (v : List (String × α)) (s : String) :
    lookupKV (v.map (fun e => (e.1, f e.1 e.2))) s =
      (lookupKV v s).map (f s) := by
  induction v with
  | nil => rfl
  | cons e rest ih =>
    by_cases he : e.1 = s
    · subst he
      simp [lookupKV]
    · simp [lookupKV, he, ih]

theorem lookupKV_filter_key {α : Type} (q : String → Bool)
    (v : List (String × α)) (s : String) (hq : q s = true) :
    lookupKV (v.filter (fun e => q e.1)) s = lookupKV v s := by
  induction v with
  | nil => rfl
  | cons e rest ih =>
    by_cases he : e.1 = s
    · subst he
      simp [List.filter_cons, hq, lookupKV]
    · by_cases hqe : q e.1 = true
      · simp [List.filter_cons, hqe, lookupKV, he, ih]
      · simp only [Bool.not_eq_true] at hqe
        simp [List.filter_cons, hqe, lookupKV, he, ih]

theorem lookupKV_mem {α : Type} (v : List (String × α)) (s : String) (a : α)
    (h : lookupKV v s = some a) : (s, a) ∈ v := by
  induction v with
  | nil => exact nomatch h
  | cons e rest ih =>
    obtain ⟨s', a'⟩ := e
    by_cases he : s' = s
    · subst he
      simp only [lookupKV, if_true, Option.some.injEq] at h
      subst h
      exact List.mem_cons_self _ _
    · simp only [lookupKV, he, if_false] at h
      exact List.mem_cons_of_mem _ (ih h)

theorem lookupKV_mergeVaults (localV remoteV : VaultData) (s : String) :
    lookupKV (mergeVaults localV remoteV) s =
      match lookupKV localV s, lookupKV remoteV s with
      | some p, some q => some (lww p q)
      | some p, none => some p
      | none, some q => some q
      | none, none => none := by
  unfold mergeVaults
  cases hl : lookupKV localV s with
  | some p =>
    have hmap : lookupKV
        (localV.map (fun e => (e.1, mergeEntry remoteV e.1 e.2))) s =
        some (mergeEntry remoteV s p) := by
      rw [lookupKV_map_value, hl]
      rfl
    rw [lookupKV_append_some _ _ _ _ hmap]
    unfold mergeEntry
    cases hr : lookupKV remoteV s <;> simp
  | none =>
    have hmap : lookupKV
        (localV.map (fun e => (e.1, mergeEntry remoteV e.1 e.2))) s =
        none := by
      rw [lookupKV_map_value, hl]
      rfl
    rw [lookupKV_append_none _ _ _ hmap,
      lookupKV_filter_key (fun x => (lookupKV localV x).isNone) remoteV s
        (by simp [hl])]
    cases hr : lookupKV remoteV s <;> simp

/-- C3: a crash at any point around the temp-write / rename sequence of a
vault mutation leaves the vault file whole — in every reachable crash state,
`list()` succeeds (never raises) and returns exactly the pre-mutation or
exactly the post-mutation vault state, never partial data. -/
theorem list_crash_atomicity (v : VaultData) (m : Mutation) (k : Nat)
    (d : Disk) (hd : d ∈ crashStates v m k) :
    (∃ r, listDisk d = .ok r) ∧
    (listDisk d = .ok v ∨ listDisk d = .ok (applyMutation m v)) := by
  simp only [crashStates, List.mem_cons, List.mem_singleton,
    List.not_mem_nil, or_false] at hd
  rcases hd with h | h | h | h <;> subst h <;>
    simp [listDisk, readFile]

/-- Witness for C3: the crash state between temp-write and rename of a
delete, on a one-profile vault. -/
theorem list_crash_atomicity_witness :
    (∃ r, listDisk crashDisk = .ok r) ∧
    (listDisk crashDisk = .ok [("work", sampleProfile "sk-1" 1)] ∨
     listDisk crashDisk =
       .ok (applyMutation (.delete "work")
         [("work", sampleProfile "sk-1" 1)])) :=
  list_crash_atomicity [("work", sampleProfile "sk-1" 1)] (.delete "work") 5
    crashDisk (by decide)

/-- C4: if two replicas each applied modifications to disjoint slug sets on
top of a common base (each modification newer than the base's record), then
the per-slug last-write-wins merge contains every modification from both
sides, and a third replica still at the base that merges with the merged
state also sees every modification — none is lost. -/
theorem sync_merge_disjoint_mods
    (base : VaultData) (modsA modsB : List (String × Profile))
    (hndA : (modsA.map Prod.fst).Nodup) (hndB : (modsB.map Prod.fst).Nodup)
    (hdisj : ∀ s ∈ modsA.map Prod.fst, s ∉ modsB.map Prod.fst)
    (hnewA : ∀ e ∈ modsA, isNewerThan base e = true)
    (hnewB : ∀ e ∈ modsB, isNewerThan base e = true) :
    (∀ e ∈ modsA,
      lookupKV (mergeVaults (applyPuts base modsA) (applyPuts base modsB))
        e.1 = some e.2) ∧
    (∀ e ∈ modsB,
      lookupKV (mergeVaults (applyPuts base modsA) (applyPuts base modsB))
        e.1 = some e.2) ∧
    (∀ e ∈ modsA,
      lookupKV (mergeVaults base
        (mergeVaults (applyPuts base modsA) (applyPuts base modsB)))
        e.1 = some e.2) ∧
    (∀ e ∈ modsB,
      lookupKV (mergeVaults base
        (mergeVaults (applyPuts base modsA) (applyPuts base modsB)))
        e.1 = some e.2) := by
  have hlt : ∀ (mods : List (String × Profile)),
      (∀ e ∈ mods, isNewerThan base e = true) →
      ∀ e ∈ mods, ∀ q, lookupKV base e.1 = some q → q.mtime < e.2.mtime := by
    intro mods hnew e he q hq
    have := hnew e he
    unfold isNewerThan at this
    rw [hq] at this
    exact of_decide_eq_true this
  have hA : ∀ e ∈ modsA, lookupKV (applyPuts base modsA) e.1 = some e.2 := by
    intro e he
    exact lookupKV_applyPuts_mem base modsA e.1 e.2 hndA (by simpa using he)
  have hB : ∀ e ∈ modsB, lookupKV (applyPuts base modsB) e.1 = some e.2 := by
    intro e he
    exact lookupKV_applyPuts_mem base modsB e.1 e.2 hndB (by simpa using he)
  have hAonB : ∀ e ∈ modsA,
      lookupKV (applyPuts base modsB) e.1 = lookupKV base e.1 := by
    intro e he
    exact lookupKV_applyPuts_not_mem _ _ _
      (hdisj e.1 (List.mem_map_of_mem _ he))
  have hBonA : ∀ e ∈ modsB,
      lookupKV (applyPuts base modsA) e.1 = lookupKV base e.1 := by
    intro e he
    refine lookupKV_applyPuts_not_mem _ _ _ ?_
    intro hsA
    exact hdisj e.1 hsA (List.mem_map_of_mem _ he)
  have hmergeA : ∀ e ∈ modsA,
      lookupKV (mergeVaults (applyPuts base modsA) (applyPuts base modsB))
        e.1 = some e.2 := by
    intro e he
    rw [lookupKV_mergeVaults, hA e he, hAonB e he]
    cases hb : lookupKV base e.1 with
    | none => rfl
    | some q =>
      have h := hlt modsA hnewA e he q hb
      simp [lww, Nat.lt_asymm h]
  have hmergeB : ∀ e ∈ modsB,
      lookupKV (mergeVaults (applyPuts base modsA) (applyPuts base modsB))
        e.1 = some e.2 := by
    intro e he
    rw [lookupKV_mergeVaults, hBonA e he, hB e he]
    cases hb : lookupKV base e.1 with
    | none => rfl
    | some q =>
      have h := hlt modsB hnewB e he q hb
      simp [lww, h]
  refine ⟨hmergeA, hmergeB, ?_, ?_⟩
  · intro e he
    rw [lookupKV_mergeVaults, hmergeA e he]
    cases hb : lookupKV base e.1 with
    | none => rfl
    | some q =>
      have h := hlt modsA hnewA e he q hb
      simp [lww, h]
  · intro e he
    rw [lookupKV_mergeVaults, hmergeB e he]
    cases hb : lookupKV base e.1 with
    | none => rfl
    | some q =>
      have h := hlt modsB hnewB e he q hb
      simp [lww, h]

/-- Witness for C4: replica A modifies slug "a", replica B modifies slug
"b", both on the same two-profile base; the merged vault and the
third-replica merge contain both modifications. -/
theorem sync_merge_disjoint_mods_witness :
    lookupKV (mergeVaults
      (applyPuts [("a", sampleProfile "ka0" 0), ("b", sampleProfile "kb0" 0)]
        [("a", sampleProfile "ka1" 5)])
      (applyPuts [("a", sampleProfile "ka0" 0), ("b", sampleProfile "kb0" 0)]
        [("b", sampleProfile "kb1" 6)])) "a" = some (sampleProfile "ka1" 5) ∧
    lookupKV (mergeVaults
      (applyPuts [("a", sampleProfile "ka0" 0), ("b", sampleProfile "kb0" 0)]
        [("a", sampleProfile "ka1" 5)])
      (applyPuts [("a", sampleProfile "ka0" 0), ("b", sampleProfile "kb0" 0)]
        [("b", sampleProfile "kb1" 6)])) "b" = some (sampleProfile "kb1" 6) ∧
    lookupKV (mergeVaults
      [("a", sampleProfile "ka0" 0), ("b", sampleProfile "kb0" 0)]
      (mergeVaults
        (applyPuts
          [("a", sampleProfile "ka0" 0), ("b", sampleProfile "kb0" 0)]
          [("a", sampleProfile "ka1" 5)])
        (applyPuts
          [("a", sampleProfile "ka0" 0), ("b", sampleProfile "kb0" 0)]
          [("b", sampleProfile "kb1" 6)]))) "a" =
      some (sampleProfile "ka1" 5) ∧
    lookupKV (mergeVaults
      [("a", sampleProfile "ka0" 0), ("b", sampleProfile "kb0" 0)]
      (mergeVaults
        (applyPuts
          [("a", sampleProfile "ka0" 0), ("b", sampleProfile "kb0" 0)]
          [("a", sampleProfile "ka1" 5)])
        (applyPuts
          [("a", sampleProfile "ka0" 0), ("b", sampleProfile "kb0" 0)]
          [("b", sampleProfile "kb1" 6)]))) "b" =
      some (sampleProfile "kb1" 6) := by
  have h := sync_merge_disjoint_mods
    [("a", sampleProfile "ka0" 0), ("b", sampleProfile "kb0" 0)]
    [("a", sampleProfile "ka1" 5)] [("b", sampleProfile "kb1" 6)]
    (by decide) (by decide) (by decide) (by decide) (by decide)
  exact ⟨h.1 ("a", sampleProfile "ka1" 5) (by decide),
    h.2.1 ("b", sampleProfile "kb1" 6) (by decide),
    h.2.2.1 ("a", sampleProfile "ka1" 5) (by decide),
    h.2.2.2 ("b", sampleProfile "kb1" 6) (by decide)⟩

/-- C5: switching to a slug that exists in no accessible vault fails with
`ProfileNotFound`, and the persisted globally active slug afterwards equals
the one before the call. -/
theorem switch_missing_slug (st : CoreState) (slug : String)
    (h : lookupKV (listAll st) slug = none) :
    (switch st slug).1 = .error .profileNotFound ∧
    (switch st slug).2.ctx.globalActive = st.ctx.globalActive := by
  unfold switch
  rw [h]
  simp [recordAudit]

/-- Witness for C5: switching to "ghost" on a state whose vault is empty
fails and keeps the prior active slug. -/
theorem switch_missing_slug_witness :
    (switch bareState "ghost").1 = .error .profileNotFound ∧
    (switch bareState "ghost").2.ctx.globalActive =
      bareState.ctx.globalActive :=
  switch_missing_slug bareState "ghost" (by decide)

/-- C6: when identity resolution yields none, `run` fails with
`NoActiveIdentity` and produces no spawn (the state is returned unchanged);
and conversely every spawn `run` ever produces carries the environment built
from a resolved profile's credentials over the ambient environment — never
the plain ambient environment as a fallback path. -/
theorem run_no_identity (st : CoreState) (cwd argv : List String)
    (ambient : List (String × String)) :
    (resolve st.ctx cwd = none →
      run st cwd argv ambient = (.error .noActiveIdentity, st)) ∧
    (∀ req st₂, run st cwd argv ambient = (.ok req, st₂) →
      ∃ slug p, resolve st.ctx cwd = some slug ∧
        lookupKV (listAll st) slug = some p ∧
        req = { argv := argv, env := injectEnv ambient p }) := by
  constructor
  · intro h
    simp [run, h]
  · intro req st₂ hrun
    cases hres : resolve st.ctx cwd with
    | none => simp [run, hres] at hrun
    | some slug =>
      cases hp : lookupKV (listAll st) slug with
      | none => simp [run, hres, runInject, hp] at hrun
      | some p =>
        have hcomp : run st cwd argv ambient =
            (.ok { argv := argv, env := injectEnv ambient p },
             recordAudit st slug .inject true) := by
          simp [run, hres, runInject, hp]
        rw [hcomp] at hrun
        have hfst := congrArg Prod.fst hrun
        simp only [Except.ok.injEq] at hfst
        exact ⟨slug, p, rfl, hp, hfst.symm⟩

/-- Witness for C6: with no identity layer set, `run` fails without a spawn;
with an active profile, the produced spawn uses the injected environment. -/
theorem run_no_identity_witness :
    run noIdState ["d"] ["env"] [] = (.error .noActiveIdentity, noIdState) ∧
    (∃ slug p, resolve activeState.ctx ["d"] = some slug ∧
      lookupKV (listAll activeState) slug = some p ∧
      ({ argv := ["env"],
         env := injectEnv [] (sampleProfile "sk-w" 3) } : SpawnRequest) =
        { argv := ["env"], env := injectEnv [] p }) := by
  constructor
  · exact (run_no_identity noIdState ["d"] ["env"] []).1 (by decide)
  · exact (run_no_identity activeState ["d"] ["env"] []).2
      { argv := ["env"], env := injectEnv [] (sampleProfile "sk-w" 3) }
      (recordAudit activeState "work" .inject true) rfl

/-- C8: each `get`, `switch` and injection (`run`) call appends exactly one
audit entry — the new log is one entry consed onto the old — whose slug and
action kind match the call; the entry is built only from the clock, the slug,
the action and the exposure flag, so it does not depend on any stored secret
payload (last conjunct: replacing the entire vault contents leaves the
appended entry unchanged). -/
theorem audit_exactly_one_per_call (st : CoreState) (slug : String)
    (argv : List String) (ambient : List (String × String)) :
    ((get st slug).2.audit =
      { timestamp := st.clock, slug := slug, action := .read,
        exposed := false } :: st.audit) ∧
    ((switch st slug).2.audit =
      { timestamp := st.clock, slug := slug, action := .switch,
        exposed := false } :: st.audit) ∧
    ((runInject st slug argv ambient).2.audit =
      { timestamp := st.clock, slug := slug, action := .inject,
        exposed := true } :: st.audit) ∧
    (∀ (v : VaultData) (ts : List (String × VaultData)),
      (get { st with personal := v, teams := ts } slug).2.audit.head? =
        (get st slug).2.audit.head?) := by
  refine ⟨?_, ?_, ?_, ?_⟩
  · unfold get
    cases lookupKV (listAll st) slug <;> simp [recordAudit]
  · unfold switch
    cases (lookupKV (listAll st) slug).isSome <;> simp [recordAudit]
  · unfold runInject
    cases lookupKV (listAll st) slug <;> simp [recordAudit]
  · intro v ts
    unfold get
    cases lookupKV (listAll { st with personal := v, teams := ts }) slug <;>
      cases lookupKV (listAll st) slug <;> simp [recordAudit]

theorem addNamespace_data (ns s : String) :
    (addNamespace ns s).data = (ns ++ "/").data ++ s.data := by
  simp [addNamespace, String.data_append, List.append_assoc]

theorem underNamespace_addNamespace (ns s : String) :
    underNamespace ns (addNamespace ns s) = true := by
  unfold underNamespace
  rw [addNamespace_data, List.isPrefixOf_iff_prefix]
  exact List.prefix_append _ _

theorem addNamespace_inj (ns a b : String)
    (h : addNamespace ns a = addNamespace ns b) : a = b := by
  have hd := congrArg String.data h
  rw [addNamespace_data, addNamespace_data] at hd
  have hab := List.append_cancel_left hd
  cases a with
  | mk da =>
    cases b with
    | mk db => exact congrArg String.mk hab

theorem lookupKV_map_addNamespace {α : Type} (ns : String)
    (v : List (String × α)) (s : String) :
    lookupKV (v.map (fun e => (addNamespace ns e.1, e.2)))
      (addNamespace ns s) = lookupKV v s := by
  induction v with
  | nil => rfl
  | cons e rest ih =>
    obtain ⟨s', a'⟩ := e
    by_cases he : s' = s
    · subst he
      simp [lookupKV]
    · have hne : addNamespace ns s' ≠ addNamespace ns s :=
        fun hc => he (addNamespace_inj ns s' s hc)
      simp [lookupKV, he, hne, ih]

theorem lookupKV_eq_none_of_keys {α : Type} (v : List (String × α))
    (k : String) (h : ∀ e ∈ v, e.1 ≠ k) : lookupKV v k = none := by
  induction v with
  | nil => rfl
  | cons e rest ih =>
    have hne := h e (List.mem_cons_self _ _)
    simp [lookupKV, hne, ih (fun f hf => h f (List.mem_cons_of_mem _ hf))]

/-- C7: `team_join` under a master key that fails to unwrap the team's
content key fails with `InvalidMasterKey` and registers nothing — the state
is unchanged, so `list()` is unchanged and still contains nothing under the
`team_name/` prefix; and once the correct master key is supplied the join
succeeds and every team profile becomes visible under that prefix. -/
theorem team_join_key_gating
    (st : CoreState) (name : String) (remote : TeamRemote)
    (masterKey correctKey n1 n2 contentKey : Nat) (tv : VaultData)
    (hw : remote.wrapper = encrypt correctKey n1 contentKey)
    (hv : remote.vaultBlob = encrypt contentKey n2 tv)
    (hbad : masterKey ≠ correctKey)
    (hfree : ∀ e ∈ listAll st, underNamespace name e.1 = false)
    (htv : (tv.map Prod.fst).Nodup) :
    ((team_join st name remote masterKey).1 = .error .invalidMasterKey ∧
     (team_join st name remote masterKey).2 = st ∧
     ∀ e ∈ listAll (team_join st name remote masterKey).2,
       underNamespace name e.1 = false) ∧
    ((team_join st name remote correctKey).1 = .ok () ∧
     ∀ e ∈ tv,
       lookupKV (listAll (team_join st name remote correctKey).2)
         (addNamespace name e.1) = some e.2) := by
  have hbadc : decrypt masterKey remote.wrapper =
      .error .authenticationError := by
    rw [hw]
    simp only [decrypt, encrypt, Prod.mk.injEq]
    rw [if_neg]
    intro hc
    exact hbad hc.1.symm
  have hokc : decrypt correctKey remote.wrapper = .ok contentKey := by
    rw [hw]
    simp [decrypt, encrypt]
  have hokv : decrypt contentKey remote.vaultBlob = .ok tv := by
    rw [hv]
    simp [decrypt, encrypt]
  have hfail : team_join st name remote masterKey =
      (.error .invalidMasterKey, st) := by
    simp [team_join, hbadc]
  have hsucc : team_join st name remote correctKey =
      (.ok (), { st with teams := st.teams ++ [(name, tv)] }) := by
    simp [team_join, hokc, hokv]
  have h2 : (team_join st name remote correctKey).2 =
      { st with teams := st.teams ++ [(name, tv)] } := by
    rw [hsucc]
  have hlist : listAll { st with teams := st.teams ++ [(name, tv)] } =
      listAll st ++ tv.map (fun e => (addNamespace name e.1, e.2)) := by
    simp [listAll, List.map_append, List.flatten_append, List.append_assoc]
  refine ⟨⟨?_, ?_, ?_⟩, ?_, ?_⟩
  · rw [hfail]
  · rw [hfail]
  · rw [hfail]
    exact hfree
  · rw [hsucc]
  · intro e he
    rw [h2, hlist]
    have hnone : lookupKV (listAll st) (addNamespace name e.1) = none := by
      apply lookupKV_eq_none_of_keys
      intro f hf hfk
      have hq := hfree f hf
      rw [hfk, underNamespace_addNamespace] at hq
      exact absurd hq (by decide)
    rw [lookupKV_append_none _ _ _ hnone, lookupKV_map_addNamespace]
    exact lookupKV_of_mem_nodup tv e.1 e.2 htv (by simpa using he)

/-- Witness for C7: joining team "ops" with master key 3 (correct key 5)
fails and changes nothing; joining with key 5 succeeds and exposes the team
profile "ops/aws". -/
theorem team_join_key_gating_witness :
    (team_join activeState "ops" teamRemoteW 3).1 =
      .error .invalidMasterKey ∧
    (team_join activeState "ops" teamRemoteW 3).2 = activeState ∧
    (team_join activeState "ops" teamRemoteW 5).1 = .ok () ∧
    lookupKV (listAll (team_join activeState "ops" teamRemoteW 5).2)
      (addNamespace "ops" "aws") = some (sampleProfile "sk-t" 1) := by
  have h := team_join_key_gating activeState "ops" teamRemoteW 3 5 1 2 99
    [("aws", sampleProfile "sk-t" 1)] rfl rfl (by decide) (by decide)
    (by decide)
  exact ⟨h.1.1, h.1.2.1, h.2.1,
    h.2.2 ("aws", sampleProfile "sk-t" 1) (by decide)⟩

/-! ## Theorems -/

/-- C1: for every payload and key, `decrypt` inverts `encrypt`; decrypting
under a different key, or after the body has been tampered with, fails with
`AuthenticationError`; and any successful decryption returns exactly the
authentic plaintext bound by the tag, never a corrupted one. -/
theorem decrypt_encrypt_roundtrip_and_auth {α : Type} [DecidableEq α]
    (k k' n : Nat) (p b : α)
    (hk : k' ≠ k) (hb : b ≠ p) :
    decrypt k (encrypt k n p) = .ok p ∧
    decrypt k' (encrypt k n p) = .error .authenticationError ∧
    decrypt k (tamper (encrypt k n p) b) = .error .authenticationError ∧
    (∀ (c : Ciphertext α) (q : α), decrypt k c = .ok q → c.tag = (k, q)) := by
  refine ⟨?_, ?_, ?_, ?_⟩
  · simp [decrypt, encrypt]
  · simp [decrypt, encrypt]
    intro h
    exact absurd h.symm hk
  · simp [decrypt, encrypt, tamper]
    intro h
    exact absurd h.symm hb
  · intro c q h
    by_cases htag : c.tag = (k, c.body)
    · simp [decrypt, htag] at h
      rw [htag, h]
    · simp [decrypt, htag] at h

/-- Witness for C1 at concrete inputs. -/
theorem decrypt_encrypt_roundtrip_and_auth_witness :
    decrypt 1 (encrypt 1 7 "sk-secret") = .ok "sk-secret" ∧
    decrypt 2 (encrypt 1 7 "sk-secret") = .error .authenticationError ∧
    decrypt 1 (tamper (encrypt 1 7 "sk-secret") "sk-evil") =
      .error .authenticationError ∧
    (∀ (c : Ciphertext String) (q : String),
      decrypt 1 c = .ok q → c.tag = (1, q)) := by
  have h := decrypt_encrypt_roundtrip_and_auth 1 2 7 "sk-secret" "sk-evil"
    (by decide) (by decide)
  exact ⟨h.1, h.2.1, h.2.2.1, h.2.2.2⟩

/-- C2: `resolve` applies the three-layer precedence — the session override
when set, else the closest recorded directory link found walking up from
`cwd`, else the persisted globally active slug (which is `none` when absent);
and an exact link on `cwd` itself beats any ancestor's link. -/
theorem resolve_precedence (ctx : IdentityCtx) (cwd : List String) :
    (∀ s, ctx.sessionOverride = some s → resolve ctx cwd = some s) ∧
    (ctx.sessionOverride = none →
      ∀ d, walkUp ctx.dirLinks cwd = some d → resolve ctx cwd = some d) ∧
    (ctx.sessionOverride = none → walkUp ctx.dirLinks cwd = none →
      resolve ctx cwd = ctx.globalActive) ∧
    (∀ s, lookupDir ctx.dirLinks cwd = some s →
      walkUp ctx.dirLinks cwd = some s) := by
  refine ⟨?_, ?_, ?_, ?_⟩
  · intro s hs
    simp [resolve, hs]
  · intro hn d hd
    simp [resolve, hn, hd]
  · intro hn hd
    simp [resolve, hn, hd]
  · intro s hs
    unfold walkUp
    cases hrev : cwd.reverse with
    | nil =>
      have hcwd : cwd = [] := by
        simpa using congrArg List.reverse hrev
      subst hcwd
      simpa [walkUpFrom] using hs
    | cons c tail =>
      have hback : (c :: tail).reverse = cwd := by
        rw [← hrev, List.reverse_reverse]
      simp [walkUpFrom, hback, hs]

/-- Witness for C2 at concrete inputs (the spec's own example: global active
"personal", directory linked to "work", override "scratch" when present). -/
theorem resolve_precedence_witness :
    resolve ⟨some "scratch", [(["home", "p"], "work")], some "personal"⟩
      ["home", "p"] = some "scratch" ∧
    resolve ⟨none, [(["home", "p"], "work")], some "personal"⟩
      ["home", "p", "sub"] = some "work" ∧
    resolve ⟨none, [(["home", "p"], "work")], some "personal"⟩
      ["opt"] = some "personal" ∧
    resolve ⟨none, [], none⟩ ["home"] = none ∧
    walkUp [(["home"], "outer"), (["home", "p"], "inner")] ["home", "p"] =
      some "inner" := by
  refine ⟨?_, ?_, ?_, ?_, ?_⟩
  · exact (resolve_precedence _ _).1 "scratch" rfl
  · exact (resolve_precedence _ _).2.1 rfl "work" (by decide)
  · exact ((resolve_precedence _ _).2.2.1 rfl (by decide)).trans rfl
  · exact ((resolve_precedence _ _).2.2.1 rfl (by decide)).trans rfl
  · exact (resolve_precedence ⟨none, [(["home"], "outer"),
      (["home", "p"], "inner")], none⟩ ["home", "p"]).2.2.2 "inner" (by decide)

end Codex

namespace CliBridge

/-- C9: the `POST` handler passes `args` to the backend binary exactly as
given; although `allowedCommands` is declared, it is never consulted, so two
requests — one whose first argument is whitelisted and one whose first
argument is not — get identical responses whenever the binary behaves the
same on them. -/
theorem post_whitelist_not_consulted
    (exec : List String → ExecOutcome) (args args' : List String)
    (_hin : firstArgAllowed args = true)
    (_hout : firstArgAllowed args' = false)
    (hexec : exec args = exec args') :
    POST exec args = POST exec args' := by
  unfold POST
  rw [hexec]

/-- Witness for C9: a whitelisted command and an arbitrary non-whitelisted
one get the same response from the handler. -/
theorem post_whitelist_not_consulted_witness :
    firstArgAllowed ["status"] = true ∧
    firstArgAllowed ["rm-rf-everything"] = false ∧
    POST (fun _ => .ok "out" "") ["status"] =
      POST (fun _ => .ok "out" "") ["rm-rf-everything"] := by
  refine ⟨by decide, by decide, ?_⟩
  exact post_whitelist_not_consulted (fun _ => .ok "out" "")
    ["status"] ["rm-rf-everything"] (by decide) (by decide) rfl

end CliBridge

namespace TrayApp

open CliBridge

/-- C10: in the non-Tauri (browser/API-bridge) branch, `invokeCLI` never
throws — it always returns a `CliResult` with `code`, `stdout` and `stderr`
fields — and when the fetch throws it returns
`{ code: 1, stdout: "", stderr: String(e) }` instead of propagating. -/
theorem invokeCLI_browser_total
    (sidecar : Except String CliResult) (f : FetchOutcome) :
    (∃ r, invokeCLI false sidecar f = .ok r) ∧
    (∀ e, f = .thrown e →
      invokeCLI false sidecar f =
        .ok { code := 1, stdout := "", stderr := e }) := by
  constructor
  · cases f <;> exact ⟨_, rfl⟩
  · intro e he
    subst he
    rfl

/-- Witness for C10: even when the sidecar path would throw and the fetch
throws, the browser branch returns the fallback result. -/
theorem invokeCLI_browser_total_witness :
    (∃ r, invokeCLI false (.error "sidecar crash") (.thrown "boom") = .ok r) ∧
    invokeCLI false (.error "sidecar crash") (.thrown "boom") =
      .ok { code := 1, stdout := "", stderr := "boom" } :=
  ⟨(invokeCLI_browser_total (.error "sidecar crash") (.thrown "boom")).1,
   (invokeCLI_browser_total (.error "sidecar crash") (.thrown "boom")).2
     "boom" rfl⟩

end TrayApp
